import Mathlib

/-!
Shallow embedding of the CGT (capital-gains-tax) computation engine of the
crypto-portfolio repository: financial-year resolution, CGT event derivation,
tax summary aggregation, the progressive tax calculator with its per-bracket
breakdown, and wash-sale detection.

Modelling conventions:
* JavaScript numbers are modelled as rationals (`ℚ`); millisecond timestamps
  (`Date.getTime()`) as integers (`ℤ`).  `NaN`-producing paths (an unparseable
  date) are modelled with `Option`: `none` stands for a missing or unparseable
  value.
* JavaScript strings are modelled as `List Char` where the engine manipulates
  them (financial-year labels); opaque identifiers (asset names, exchange
  names) are plain `String`.
* Calendar dates built by `new Date(year, month, day, h, m, s, ms)` are
  modelled by the `SimpleDate` structure of broken-down fields (month 0-based
  exactly as in JavaScript); `SimpleDate.time` converts to a millisecond
  timestamp using standard civil-calendar arithmetic (one fixed timezone,
  i.e. the host timezone of the original is taken to be UTC).
-/

namespace CryptoTax

/-- A broken-down calendar date, mirroring the fields of a JavaScript `Date`
constructed via `new Date(year, month, day, hours, minutes, seconds, ms)`.
`month` is 0-based (0 = January, 6 = July), as in JavaScript. -/
structure SimpleDate where
  year : ℕ
  month : ℕ
  day : ℕ
  hour : ℕ
  minute : ℕ
  second : ℕ
  ms : ℕ
deriving DecidableEq, Repr

/-- Gregorian leap-year test. -/
def isLeapYear (y : ℕ) : Bool :=
  (y % 4 = 0 && y % 100 ≠ 0) || y % 400 = 0

/-- Number of days of a (0-based) calendar month. -/
def daysInMonth (m y : ℕ) : ℕ :=
  match m with
  | 0 => 31
  | 1 => if isLeapYear y then 29 else 28
  | 2 => 31
  | 3 => 30
  | 4 => 31
  | 5 => 30
  | 6 => 31
  | 7 => 31
  | 8 => 30
  | 9 => 31
  | 10 => 30
  | _ => 31

/-- A `SimpleDate` whose fields are in calendar range (a date JavaScript would
not normalise away). -/
def SimpleDate.Valid (d : SimpleDate) : Prop :=
  d.month ≤ 11 ∧ 1 ≤ d.day ∧ d.day ≤ daysInMonth d.month d.year ∧
    d.hour ≤ 23 ∧ d.minute ≤ 59 ∧ d.second ≤ 59 ∧ d.ms ≤ 999

instance (d : SimpleDate) : Decidable d.Valid := by
  unfold SimpleDate.Valid
  infer_instance

/-- Day number of a civil date (1-based month `m`) counted from the Unix epoch
1970-01-01; the standard days-from-civil algorithm. -/
def daysFromCivil (y : ℕ) (m : ℕ) (d : ℕ) : ℤ :=
  let yAdj : ℤ := if m ≤ 2 then (y : ℤ) - 1 else (y : ℤ)
  let era : ℤ := yAdj / 400
  let yoe : ℤ := yAdj - era * 400
  let mp : ℤ := if 2 < m then (m : ℤ) - 3 else (m : ℤ) + 9
  let doy : ℤ := (153 * mp + 2) / 5 + (d : ℤ) - 1
  let doe : ℤ := yoe * 365 + yoe / 4 - yoe / 100 + doy
  era * 146097 + doe - 719468

/-- Millisecond timestamp of a `SimpleDate` (the model of `Date.getTime()`). -/
def SimpleDate.time (d : SimpleDate) : ℤ :=
  daysFromCivil d.year (d.month + 1) d.day * 86400000 +
    (d.hour : ℤ) * 3600000 + (d.minute : ℤ) * 60000 + (d.second : ℤ) * 1000 + (d.ms : ℤ)

/-! ### Decimal printing and parsing of numbers (the model of JavaScript
`Number.prototype.toString` and `parseInt(·, 10)` as used on FY labels) -/

/-- The decimal digit character of `d < 10`. -/
def digitChar (d : ℕ) : Char :=
  Char.ofNat (48 + d)

/-- Decimal representation of a natural number, most significant digit first
(the model of JavaScript number-to-string conversion for naturals). -/
def natChars (n : ℕ) : List Char :=
  if _h : n < 10 then [digitChar n]
  else natChars (n / 10) ++ [digitChar (n % 10)]
decreasing_by exact Nat.div_lt_self (by omega) (by omega)

/-- `String.prototype.padStart(2, "0")` applied to the decimal digits of `n`. -/
def pad2 (n : ℕ) : List Char :=
  if n < 10 then '0' :: natChars n else natChars n

/-- Value of a list of decimal digit characters, most significant first. -/
def digitsVal (cs : List Char) : ℕ :=
  cs.foldl (fun acc c => acc * 10 + (c.toNat - 48)) 0

/-- Model of `parseInt(s, 10)` on the strings the engine feeds it (no leading
whitespace or sign): parse the maximal leading run of decimal digits, `none`
(JavaScript `NaN`) when there is none. -/
def parseIntJS (s : List Char) : Option ℕ :=
  let ds := s.takeWhile Char.isDigit
  if ds.isEmpty then none else some (digitsVal ds)

/-- Model of `String.prototype.split("-")`. -/
def splitOnDash : List Char → List (List Char)
  | [] => [[]]
  | c :: cs =>
    if c = '-' then [] :: splitOnDash cs
    else
      match splitOnDash cs with
      | [] => [[c]]
      | s :: rest => (c :: s) :: rest

/-! ### Financial-year helpers -/

/-- `getFYBoundaries`: start/end dates for an FY label like `"2024-25"`.
`none` models the Invalid-Date pair JavaScript produces when `parseInt` on the
label's first segment yields `NaN`. -/
def getFYBoundaries (fy : List Char) : Option (SimpleDate × SimpleDate) :=
  match parseIntJS ((splitOnDash fy).headD []) with
  | none => none
  | some startYear =>
    some (⟨startYear, 6, 1, 0, 0, 0, 0⟩, ⟨startYear + 1, 5, 30, 23, 59, 59, 999⟩)

/-- `getFinancialYearLabel`: the FY label (e.g. `"2024-25"`) a date falls in. -/
def getFinancialYearLabel (date : SimpleDate) : List Char :=
  if 6 ≤ date.month then
    natChars date.year ++ '-' :: pad2 ((date.year + 1) % 100)
  else
    natChars (date.year - 1) ++ '-' :: pad2 (date.year % 100)

/-! ### Data model: trades and derived records -/

/-- `market_type` of a trade. -/
inductive MarketType where
  | spot
  | perp
  | premarket
  | sol
deriving DecidableEq, Repr

/-- The `TaxableTrade` input record.  Dates are carried as already-parsed
millisecond timestamps; `none` models a missing (falsy) or unparseable
(`NaN`) date.  `exitQuantity` is `none` when the field is undefined. -/
structure TaxableTrade where
  spotPair : String
  buyDate : Option ℤ
  exitDate : Option ℤ
  buyPrice : ℚ
  exitPrice : ℚ
  buyQuantity : ℚ
  buyValue : ℚ
  exitQuantity : Option ℚ
  exitValue : ℚ
  profitLoss : ℚ
  exchange : String
  marketType : MarketType
deriving DecidableEq, Repr

/-- A derived CGT event.  `holdingDays = none` models the `NaN` holding period
that an unparseable date produces. -/
structure CGTEvent where
  asset : String
  buyDate : Option ℤ
  sellDate : Option ℤ
  holdingDays : Option ℤ
  costBase : ℚ
  saleProceeds : ℚ
  capitalGain : ℚ
  isLongTerm : Bool
  discountEligible : Bool
  discountedGain : ℚ
  exchange : String
deriving DecidableEq, Repr

/-- The aggregated tax summary record. -/
structure TaxSummary where
  totalGains : ℚ
  totalLosses : ℚ
  netCapitalGain : ℚ
  shortTermGains : ℚ
  longTermGains : ℚ
  cgtDiscountAmount : ℚ
  taxableCapitalGain : ℚ
  carryForwardLoss : ℚ
  shortTermTradeCount : ℕ
  longTermTradeCount : ℕ
deriving DecidableEq, Repr

/-- A tax bracket; `max = none` models the `Infinity` upper bound of the top
bracket. -/
structure TaxBracket where
  min : ℚ
  max : Option ℚ
  rate : ℚ
deriving DecidableEq, Repr

/-- One row of the per-bracket breakdown.  The presentational `range` label
(a formatted dollar string) is omitted from the model. -/
structure BracketBreakdown where
  rate : ℚ
  otherIncomeInBracket : ℚ
  cryptoIncomeInBracket : ℚ
  taxOnOther : ℚ
  taxOnCrypto : ℚ
deriving DecidableEq, Repr

/-- The result of `calculateTax`. -/
structure TaxBracketResult where
  taxOnOtherIncome : ℚ
  taxOnCrypto : ℚ
  medicareLevy : ℚ
  totalTax : ℚ
  effectiveCryptoRate : ℚ
  bracketBreakdown : List BracketBreakdown
deriving DecidableEq, Repr

/-- A wash-sale warning. -/
structure WashSaleWarning where
  asset : String
  sellDate : ℤ
  lossAmount : ℚ
  rebuyDate : ℤ
  daysBetween : ℤ
deriving DecidableEq, Repr

/-! ### Constants -/

def MEDICARE_LEVY_RATE : ℚ := 2 / 100

def CGT_DISCOUNT : ℚ := 1 / 2

def LONG_TERM_DAYS : ℤ := 365

def BRACKETS_2022_23 : List TaxBracket :=
  [⟨0, some 18200, 0⟩, ⟨18201, some 45000, 19 / 100⟩, ⟨45001, some 120000, 325 / 1000⟩,
    ⟨120001, some 180000, 37 / 100⟩, ⟨180001, none, 45 / 100⟩]

def BRACKETS_2023_24 : List TaxBracket :=
  [⟨0, some 18200, 0⟩, ⟨18201, some 45000, 19 / 100⟩, ⟨45001, some 120000, 325 / 1000⟩,
    ⟨120001, some 180000, 37 / 100⟩, ⟨180001, none, 45 / 100⟩]

def BRACKETS_2024_25 : List TaxBracket :=
  [⟨0, some 18200, 0⟩, ⟨18201, some 45000, 16 / 100⟩, ⟨45001, some 135000, 30 / 100⟩,
    ⟨135001, some 190000, 37 / 100⟩, ⟨190001, none, 45 / 100⟩]

def BRACKETS_2025_26 : List TaxBracket :=
  [⟨0, some 18200, 0⟩, ⟨18201, some 45000, 16 / 100⟩, ⟨45001, some 135000, 30 / 100⟩,
    ⟨135001, some 190000, 37 / 100⟩, ⟨190001, none, 45 / 100⟩]

/-- The `TAX_BRACKETS` table, keyed by FY label. -/
def TAX_BRACKETS : List (List Char × List TaxBracket) :=
  [("2022-23".toList, BRACKETS_2022_23), ("2023-24".toList, BRACKETS_2023_24),
    ("2024-25".toList, BRACKETS_2024_25), ("2025-26".toList, BRACKETS_2025_26)]

/-- Association-list lookup (the model of `TAX_BRACKETS[fy]`). -/
def lookupBrackets (fy : List Char) : List (List Char × List TaxBracket) → Option (List TaxBracket)
  | [] => none
  | (k, v) :: rest => if fy = k then some v else lookupBrackets fy rest

/-- `getTaxBracketsForFY`: bracket table for an FY label, falling back to the
`"2024-25"` entry when the label is not a key of the table. -/
def getTaxBracketsForFY (fy : List Char) : List TaxBracket :=
  (lookupBrackets fy TAX_BRACKETS).getD BRACKETS_2024_25

/-! ### CGT event conversion -/

/-- The JavaScript `x || y` idiom on numbers: `y` when `x` is falsy (zero). -/
def jsOr (x y : ℚ) : ℚ :=
  if x = 0 then y else x

/-- `tradeToCGTEvent`: converts a closed trade into a CGT event, converting
amounts with `usdToAudRate`.  (In the original, `costBaseUSD` is
`Math.abs(v || p*q || 0)`; the trailing `|| 0` is the identity on the
rational model.  An undefined exit quantity makes the JavaScript product
`NaN`, which is falsy, so it is modelled as a zero product.) -/
def tradeToCGTEvent (trade : TaxableTrade) (usdToAudRate : ℚ) : CGTEvent :=
  let holdingDays : Option ℤ :=
    match trade.buyDate, trade.exitDate with
    | some b, some s => some (max 0 (Int.ceil (((s - b : ℤ) : ℚ) / 86400000)))
    | _, _ => none
  let costBaseUSD : ℚ := |jsOr trade.buyValue (trade.buyPrice * trade.buyQuantity)|
  let saleProceedsUSD : ℚ := |jsOr trade.exitValue (trade.exitPrice * trade.exitQuantity.getD 0)|
  let costBase := costBaseUSD * usdToAudRate
  let saleProceeds := saleProceedsUSD * usdToAudRate
  let capitalGain := saleProceeds - costBase
  let isLongTerm : Bool :=
    match holdingDays with
    | some h => decide (LONG_TERM_DAYS < h)
    | none => false
  let discountEligible : Bool := isLongTerm && decide (0 < capitalGain)
  let discountedGain : ℚ := if discountEligible then capitalGain * CGT_DISCOUNT else capitalGain
  { asset := trade.spotPair
    buyDate := trade.buyDate
    sellDate := trade.exitDate
    holdingDays := holdingDays
    costBase := costBase
    saleProceeds := saleProceeds
    capitalGain := capitalGain
    isLongTerm := isLongTerm
    discountEligible := discountEligible
    discountedGain := discountedGain
    exchange := trade.exchange }

/-- Sort key of a CGT event: its sell timestamp (`sellDate.getTime()`; every
event reaching the sort has a parsed sell date, so the default is inert). -/
def sellKey (e : CGTEvent) : ℤ :=
  e.sellDate.getD 0

/-- The comparator `(a, b) => a.sellDate.getTime() - b.sellDate.getTime()`
as an ordering relation. -/
def sellLE (a b : CGTEvent) : Prop :=
  sellKey a ≤ sellKey b

instance : DecidableRel sellLE := fun a b => inferInstanceAs (Decidable (sellKey a ≤ sellKey b))

instance : IsTotal CGTEvent sellLE := ⟨fun a b => le_total (sellKey a) (sellKey b)⟩

instance : IsTrans CGTEvent sellLE := ⟨fun _ _ _ h1 h2 => le_trans h1 h2⟩

/-- The filter of `getCGTEventsForFY`: a closed trade with a defined, positive
exit quantity whose parsed exit date lies within the FY boundaries. -/
def passesFYFilter (s e : SimpleDate) (t : TaxableTrade) : Bool :=
  match t.exitDate with
  | none => false
  | some d =>
    match t.exitQuantity with
    | none => false
    | some q =>
      if q ≤ 0 then false
      else decide (s.time ≤ d) && decide (d ≤ e.time)

/-- `getCGTEventsForFY`: filters closed trades to the FY, maps each to a
CGT event, and sorts ascending by sell date.  An unparseable FY label gives
Invalid-Date boundaries, every date comparison against which is false, so no
trade passes. -/
def getCGTEventsForFY (trades : List TaxableTrade) (fy : List Char) (usdToAudRate : ℚ) :
    List CGTEvent :=
  match getFYBoundaries fy with
  | none => []
  | some (s, e) =>
    List.insertionSort sellLE
      ((trades.filter (passesFYFilter s e)).map (fun t => tradeToCGTEvent t usdToAudRate))

/-! ### Tax summary -/

/-- Sum of the non-negative capital gains of the events (the `totalGains`
accumulator of `calculateTaxSummary`). -/
def totalGainsOf : List CGTEvent → ℚ
  | [] => 0
  | e :: es => (if 0 ≤ e.capitalGain then e.capitalGain else 0) + totalGainsOf es

/-- Sum of the magnitudes of the negative capital gains (the `totalLosses`
accumulator). -/
def totalLossesOf : List CGTEvent → ℚ
  | [] => 0
  | e :: es => (if 0 ≤ e.capitalGain then 0 else |e.capitalGain|) + totalLossesOf es

/-- Sum of the non-negative short-term capital gains (the `shortTermGains`
accumulator). -/
def shortTermGainsOf : List CGTEvent → ℚ
  | [] => 0
  | e :: es =>
    (if 0 ≤ e.capitalGain ∧ e.isLongTerm = false then e.capitalGain else 0) + shortTermGainsOf es

/-- Sum of the non-negative long-term capital gains (the `longTermGains`
accumulator). -/
def longTermGainsOf : List CGTEvent → ℚ
  | [] => 0
  | e :: es =>
    (if 0 ≤ e.capitalGain ∧ e.isLongTerm = true then e.capitalGain else 0) + longTermGainsOf es

/-- Number of short-term events (gain or loss). -/
def shortTermCountOf : List CGTEvent → ℕ
  | [] => 0
  | e :: es => (if e.isLongTerm = false then 1 else 0) + shortTermCountOf es

/-- Number of long-term events (gain or loss). -/
def longTermCountOf : List CGTEvent → ℕ
  | [] => 0
  | e :: es => (if e.isLongTerm = true then 1 else 0) + longTermCountOf es

/-- `calculateTaxSummary`: aggregates CGT events and a carried-forward loss.
Losses are offset against short-term gains first, then long-term gains, and
the 50% CGT discount is applied to the remaining long-term gain.  The single
accumulating loop of the original is rendered by the six accumulator
functions above; the `fy` argument is unused, as in the original (`_fy`). -/
def calculateTaxSummary (events : List CGTEvent) (_fy : List Char)
    (carryForwardLossInput : ℚ) : TaxSummary :=
  let totalGains := totalGainsOf events
  let totalLosses := totalLossesOf events
  let shortTermGains := shortTermGainsOf events
  let longTermGains := longTermGainsOf events
  let shortTermTradeCount := shortTermCountOf events
  let longTermTradeCount := longTermCountOf events
  let netBeforeDiscount := totalGains - totalLosses - carryForwardLossInput
  if netBeforeDiscount ≤ 0 then
    { totalGains := totalGains
      totalLosses := totalLosses
      netCapitalGain := totalGains - totalLosses
      shortTermGains := shortTermGains
      longTermGains := longTermGains
      cgtDiscountAmount := 0
      taxableCapitalGain := 0
      carryForwardLoss := |netBeforeDiscount|
      shortTermTradeCount := shortTermTradeCount
      longTermTradeCount := longTermTradeCount }
  else
    let remainingLosses := totalLosses + carryForwardLossInput
    let shortTermOffset := if 0 < remainingLosses then min remainingLosses shortTermGains else 0
    let adjustedShortTerm := shortTermGains - shortTermOffset
    let remainingLosses2 := remainingLosses - shortTermOffset
    let longTermOffset := if 0 < remainingLosses2 then min remainingLosses2 longTermGains else 0
    let adjustedLongTerm := longTermGains - longTermOffset
    let cgtDiscountAmount := adjustedLongTerm * CGT_DISCOUNT
    let taxableCapitalGain := adjustedShortTerm + (adjustedLongTerm - cgtDiscountAmount)
    { totalGains := totalGains
      totalLosses := totalLosses
      netCapitalGain := totalGains - totalLosses
      shortTermGains := shortTermGains
      longTermGains := longTermGains
      cgtDiscountAmount := cgtDiscountAmount
      taxableCapitalGain := taxableCapitalGain
      carryForwardLoss := 0
      shortTermTradeCount := shortTermTradeCount
      longTermTradeCount := longTermTradeCount }

/-! ### Progressive tax -/

/-- `calculateProgressiveTax`: the progressive bracket walk.  Bracket width is
`max - (min == 0 ? 0 : min - 1)`, and the unbounded top bracket absorbs all
remaining income. -/
def calculateProgressiveTax (income : ℚ) : List TaxBracket → ℚ
  | [] => 0
  | b :: rest =>
    if income ≤ 0 then 0
    else
      let bracketMin := if b.min = 0 then 0 else b.min - 1
      let bracketWidth :=
        match b.max with
        | none => income
        | some m => m - bracketMin
      let taxableInBracket := min income bracketWidth
      taxableInBracket * b.rate + calculateProgressiveTax (income - taxableInBracket) rest

/-- The breakdown loop of `calculateTax`: walks the brackets with the running
remainders of the two income streams.  Bracket width is `max - min + 1`
(`remainingOther + remainingCrypto` for the unbounded top bracket); other
income fills the bracket first, crypto income takes the space left; a row is
emitted only when either stream has a nonzero amount in the bracket; the walk
stops once both streams are exhausted.  (The original compares the width
against `Infinity` when computing `spaceLeft`; the width is never `Infinity`
there, so only the finite branch is reachable.) -/
def buildBreakdown : List TaxBracket → ℚ → ℚ → List BracketBreakdown
  | [], _, _ => []
  | b :: rest, remainingOther, remainingCrypto =>
    let bracketWidth :=
      match b.max with
      | none => remainingOther + remainingCrypto
      | some m => m - b.min + 1
    if bracketWidth ≤ 0 then buildBreakdown rest remainingOther remainingCrypto
    else
      let otherInBracket := min remainingOther bracketWidth
      let remainingOther2 := remainingOther - otherInBracket
      let spaceLeft := bracketWidth - otherInBracket
      let cryptoInBracket := min remainingCrypto (max 0 spaceLeft)
      let remainingCrypto2 := remainingCrypto - cryptoInBracket
      let rows : List BracketBreakdown :=
        if 0 < otherInBracket ∨ 0 < cryptoInBracket then
          [{ rate := b.rate
             otherIncomeInBracket := otherInBracket
             cryptoIncomeInBracket := cryptoInBracket
             taxOnOther := otherInBracket * b.rate
             taxOnCrypto := cryptoInBracket * b.rate }]
        else []
      if remainingOther2 ≤ 0 ∧ remainingCrypto2 ≤ 0 then rows
      else rows ++ buildBreakdown rest remainingOther2 remainingCrypto2

/-- `calculateTax`: tax on the two income streams (other income stacked first,
crypto on top), the Medicare levy, and the per-bracket breakdown. -/
def calculateTax (otherIncome cryptoTaxableGain : ℚ) (fy : List Char) : TaxBracketResult :=
  let brackets := getTaxBracketsForFY fy
  let totalIncome := otherIncome + max 0 cryptoTaxableGain
  let taxOnTotal := calculateProgressiveTax totalIncome brackets
  let taxOnOtherOnly := calculateProgressiveTax otherIncome brackets
  let taxOnCrypto := taxOnTotal - taxOnOtherOnly
  let medicareLevy := totalIncome * MEDICARE_LEVY_RATE
  let bracketBreakdown := buildBreakdown brackets otherIncome (max 0 cryptoTaxableGain)
  let effectiveCryptoRate := if 0 < cryptoTaxableGain then taxOnCrypto / cryptoTaxableGain else 0
  { taxOnOtherIncome := taxOnOtherOnly
    taxOnCrypto := taxOnCrypto
    medicareLevy := medicareLevy
    totalTax := taxOnTotal + medicareLevy
    effectiveCryptoRate := effectiveCryptoRate
    bracketBreakdown := bracketBreakdown }

/-! ### Wash-sale detection -/

/-- `Math.ceil((buy - sell) / (1000*60*60*24))`: the signed whole-day gap used
by the wash-sale scan. -/
def washDays (buyMs sellMs : ℤ) : ℤ :=
  Int.ceil (((buyMs - sellMs : ℤ) : ℚ) / 86400000)

/-- The inner scan of `detectWashSales`: the first trade of the list on the
same asset whose parsed buy date lands 1 to 30 (whole, ceiled) days after the
loss sale; returns its buy timestamp and the day gap. -/
def findRebuy (asset : String) (sellMs : ℤ) : List TaxableTrade → Option (ℤ × ℤ)
  | [] => none
  | t :: ts =>
    if t.spotPair ≠ asset then findRebuy asset sellMs ts
    else
      match t.buyDate with
      | none => findRebuy asset sellMs ts
      | some b =>
        if 0 < washDays b sellMs ∧ washDays b sellMs ≤ 30 then some (b, washDays b sellMs)
        else findRebuy asset sellMs ts

/-- The warning a single loss event contributes (if any). -/
def warnOf (allTrades : List TaxableTrade) (e : CGTEvent) : Option WashSaleWarning :=
  match e.sellDate with
  | none => none
  | some s =>
    (findRebuy e.asset s allTrades).map fun bd =>
      { asset := e.asset
        sellDate := s
        lossAmount := |e.capitalGain|
        rebuyDate := bd.1
        daysBetween := bd.2 }

/-- `detectWashSales`: for each loss event (negative capital gain), at most
one warning — from the first qualifying rebuy in trade order. -/
def detectWashSales (events : List CGTEvent) (allTrades : List TaxableTrade) :
    List WashSaleWarning :=
  (events.filter fun e => decide (e.capitalGain < 0)).filterMap (warnOf allTrades)

/-! ### Specification-side formulas (from the spec's words, for comparison
with the code) -/

/-- The start year of the financial year a date belongs to, per the spec's
rule: July–December dates start the FY in their own calendar year,
January–June dates in the previous one. -/
def fyStartYear (d : SimpleDate) : ℕ :=
  if 6 ≤ d.month then d.year else d.year - 1

/-- Spec §4.3 step 4: residual short-term gain after offsetting the combined
losses (`totalLosses + carryForward`) against short-term gains, capped at the
available short-term gain. -/
def residualShortTerm (events : List CGTEvent) (carry : ℚ) : ℚ :=
  shortTermGainsOf events - min (totalLossesOf events + carry) (shortTermGainsOf events)

/-- Spec §4.3 step 4: residual long-term gain after offsetting the losses
left over from the short-term offset against long-term gains, capped at the
available long-term gain. -/
def residualLongTerm (events : List CGTEvent) (carry : ℚ) : ℚ :=
  longTermGainsOf events -
    min (totalLossesOf events + carry -
          min (totalLossesOf events + carry) (shortTermGainsOf events))
      (longTermGainsOf events)

/-! ### Concrete sample data (used by the witness theorems) -/

/-- A short-term gain event of 600. -/
def evShort600 : CGTEvent :=
  ⟨"AAA", some 0, some 86400000, some 1, 0, 600, 600, false, false, 600, "ExA"⟩

/-- A long-term gain event of 400. -/
def evLong400 : CGTEvent :=
  ⟨"BBB", some 0, some 34560000000, some 400, 0, 400, 400, true, true, 200, "ExA"⟩

/-- A short-term loss event of 300. -/
def evLoss300 : CGTEvent :=
  ⟨"CCC", some 0, some 86400000, some 1, 300, 0, -300, false, false, -300, "ExA"⟩

/-- A short-term loss event of 500. -/
def evLoss500 : CGTEvent :=
  ⟨"DDD", some 0, some 86400000, some 1, 500, 0, -500, false, false, -500, "ExA"⟩

/-- A loss event on BTC sold 2024-03-01T00:00Z (timestamp 1709251200000). -/
def lossBTC : CGTEvent :=
  ⟨"BTC", some 0, some 1709251200000, some 10, 200, 100, -100, false, false, -100, "ExA"⟩

/-- A BTC trade bought 19 days after the `lossBTC` sale. -/
def rebuy19 : TaxableTrade :=
  ⟨"BTC", some 1710892800000, none, 1, 0, 1, 1, none, 0, 0, "ExA", MarketType.spot⟩

/-- A BTC trade bought 31 days after the `lossBTC` sale. -/
def rebuy31 : TaxableTrade :=
  ⟨"BTC", some 1711929600000, none, 1, 0, 1, 1, none, 0, 0, "ExA", MarketType.spot⟩

/-- A trade held exactly 365 days (buy at epoch, exit 365 days later). -/
def trade365 : TaxableTrade :=
  ⟨"ETH", some 0, some 31536000000, 10, 12, 1, 10, some 1, 12, 2, "ExA", MarketType.spot⟩

/-- A closed trade whose exit date 2024-07-01T00:00Z lies inside FY 2024-25. -/
def tradeIn : TaxableTrade :=
  ⟨"SOL", some 0, some 1719792000000, 10, 12, 1, 10, some 1, 12, 2, "ExA", MarketType.spot⟩

/-- A closed trade whose exit date 2024-03-01T00:00Z lies before FY 2024-25. -/
def tradeOut : TaxableTrade :=
  ⟨"SOL", some 0, some 1709251200000, 10, 12, 1, 10, some 1, 12, 2, "ExA", MarketType.spot⟩

/-- A date in February 2025 (2025-02-15 10:30). -/
def feb2025 : SimpleDate :=
  ⟨2025, 1, 15, 10, 30, 0, 0⟩

/-! ## Helper lemmas -/

theorem totalGainsOf_nonneg (events : List CGTEvent) : 0 ≤ totalGainsOf events := by
  induction events with
  | nil => simp [totalGainsOf]
  | cons e es ih =>
    simp only [totalGainsOf]
    split
    next h => linarith
    next => linarith

theorem totalLossesOf_nonneg (events : List CGTEvent) : 0 ≤ totalLossesOf events := by
  induction events with
  | nil => simp [totalLossesOf]
  | cons e es ih =>
    simp only [totalLossesOf]
    have := abs_nonneg e.capitalGain
    split
    next => linarith
    next => linarith

theorem shortTermGainsOf_nonneg (events : List CGTEvent) : 0 ≤ shortTermGainsOf events := by
  induction events with
  | nil => simp [shortTermGainsOf]
  | cons e es ih =>
    simp only [shortTermGainsOf]
    split
    next h => linarith [h.1]
    next => linarith

theorem longTermGainsOf_nonneg (events : List CGTEvent) : 0 ≤ longTermGainsOf events := by
  induction events with
  | nil => simp [longTermGainsOf]
  | cons e es ih =>
    simp only [longTermGainsOf]
    split
    next h => linarith [h.1]
    next => linarith

theorem digitChar_isDigit (d : ℕ) (h : d < 10) : (digitChar d).isDigit = true := by
  interval_cases d <;> decide

theorem digitChar_toNat (d : ℕ) (h : d < 10) : (digitChar d).toNat = 48 + d := by
  interval_cases d <;> decide

theorem natChars_all_digits (n : ℕ) : ∀ c ∈ natChars n, c.isDigit = true := by
  induction n using Nat.strong_induction_on with
  | _ n ih =>
    unfold natChars
    split
    next h =>
      intro c hc
      rw [List.mem_singleton] at hc
      subst hc
      exact digitChar_isDigit n h
    next h =>
      intro c hc
      rcases List.mem_append.mp hc with hc1 | hc2
      · exact ih (n / 10) (Nat.div_lt_self (by omega) (by omega)) c hc1
      · rw [List.mem_singleton] at hc2
        subst hc2
        exact digitChar_isDigit (n % 10) (Nat.mod_lt _ (by omega))

theorem natChars_ne_nil (n : ℕ) : natChars n ≠ [] := by
  unfold natChars
  split
  · simp
  · simp

theorem digitsVal_go (n : ℕ) : ∀ acc : ℕ,
    (natChars n).foldl (fun a c => a * 10 + (c.toNat - 48)) acc =
      acc * 10 ^ (natChars n).length + n := by
  induction n using Nat.strong_induction_on with
  | _ n ih =>
    intro acc
    unfold natChars
    split
    next h =>
      simp only [List.foldl_cons, List.foldl_nil, List.length_singleton, pow_one,
        digitChar_toNat n h]
      omega
    next h =>
      rw [List.foldl_append]
      rw [ih (n / 10) (Nat.div_lt_self (by omega) (by omega)) acc]
      simp only [List.foldl_cons, List.foldl_nil, List.length_append,
        List.length_singleton, digitChar_toNat (n % 10) (Nat.mod_lt _ (by omega))]
      have hsub : 48 + n % 10 - 48 = n % 10 := by omega
      rw [hsub]
      calc (acc * 10 ^ (natChars (n / 10)).length + n / 10) * 10 + n % 10
          = acc * (10 ^ (natChars (n / 10)).length * 10) + (10 * (n / 10) + n % 10) := by
            ring
        _ = acc * 10 ^ ((natChars (n / 10)).length + 1) + n := by
            rw [Nat.div_add_mod, pow_succ]

theorem digitsVal_natChars (n : ℕ) : digitsVal (natChars n) = n := by
  unfold digitsVal
  rw [digitsVal_go n 0]
  simp

theorem takeWhile_append_of_all (p : Char → Bool) (l1 l2 : List Char)
    (h : ∀ c ∈ l1, p c = true) :
    (l1 ++ l2).takeWhile p = l1 ++ l2.takeWhile p := by
  induction l1 with
  | nil => simp
  | cons c cs ih =>
    rw [List.cons_append, List.takeWhile_cons_of_pos (h c (List.mem_cons_self _ _)),
      ih fun u hu => h u (List.mem_cons_of_mem _ hu), List.cons_append]

theorem takeWhile_of_all (p : Char → Bool) (l : List Char) (h : ∀ c ∈ l, p c = true) :
    l.takeWhile p = l := by
  have h2 := takeWhile_append_of_all p l [] h
  simpa using h2

theorem parseIntJS_natChars (y : ℕ) : parseIntJS (natChars y) = some y := by
  unfold parseIntJS
  rw [takeWhile_of_all _ _ (natChars_all_digits y)]
  rw [if_neg (by simp [List.isEmpty_iff, natChars_ne_nil y])]
  rw [digitsVal_natChars]

theorem splitOnDash_cons_ne (c : Char) (cs : List Char) (h : ¬(c = '-')) :
    splitOnDash (c :: cs) =
      match splitOnDash cs with
      | [] => [[c]]
      | s :: rest => (c :: s) :: rest := by
  simp [splitOnDash, h]

theorem splitOnDash_append (l1 l2 : List Char) (h : ∀ c ∈ l1, ¬(c = '-')) :
    splitOnDash (l1 ++ '-' :: l2) = l1 :: splitOnDash l2 := by
  induction l1 with
  | nil => simp [splitOnDash]
  | cons c cs ih =>
    rw [List.cons_append, splitOnDash_cons_ne c _ (h c (List.mem_cons_self _ _)),
      ih fun u hu => h u (List.mem_cons_of_mem _ hu)]

theorem natChars_not_dash (y : ℕ) : ∀ c ∈ natChars y, ¬(c = '-') := by
  intro c hc hdash
  have hdig := natChars_all_digits y c hc
  rw [hdash] at hdig
  exact absurd hdig (by decide)

theorem getFYBoundaries_label (y : ℕ) (rest : List Char) :
    getFYBoundaries (natChars y ++ '-' :: rest) =
      some (⟨y, 6, 1, 0, 0, 0, 0⟩, ⟨y + 1, 5, 30, 23, 59, 59, 999⟩) := by
  unfold getFYBoundaries
  rw [splitOnDash_append _ _ (natChars_not_dash y), List.headD_cons,
    parseIntJS_natChars y]

theorem daysInMonth_le_31 (m y : ℕ) : daysInMonth m y ≤ 31 := by
  unfold daysInMonth
  split
  all_goals try omega
  split <;> omega

theorem daysInMonth_june (y : ℕ) : daysInMonth 5 y = 30 := rfl

theorem fyStart_time_le (d : SimpleDate) (hv : d.Valid) (hy : 1 ≤ d.year) :
    (⟨fyStartYear d, 6, 1, 0, 0, 0, 0⟩ : SimpleDate).time ≤ d.time := by
  obtain ⟨hm, hd1, hd2, hh, hmin, hsec, hms⟩ := hv
  have hd31 : d.day ≤ 31 := hd2.trans (daysInMonth_le_31 _ _)
  unfold SimpleDate.time daysFromCivil fyStartYear
  simp only
  split_ifs <;> omega

theorem time_le_fyEnd (d : SimpleDate) (hv : d.Valid) (hy : 1 ≤ d.year) :
    d.time ≤ (⟨fyStartYear d + 1, 5, 30, 23, 59, 59, 999⟩ : SimpleDate).time := by
  obtain ⟨hm, hd1, hd2, hh, hmin, hsec, hms⟩ := hv
  have hd31 : d.day ≤ 31 := hd2.trans (daysInMonth_le_31 _ _)
  by_cases h5 : d.month = 5
  · have hd30 : d.day ≤ 30 := by
      rw [h5] at hd2
      exact hd2.trans_eq (daysInMonth_june d.year)
    unfold SimpleDate.time daysFromCivil fyStartYear
    simp only
    split_ifs <;> omega
  · unfold SimpleDate.time daysFromCivil fyStartYear
    simp only
    split_ifs <;> omega

theorem washDays_pos_iff (b s : ℤ) : 0 < washDays b s ↔ s < b := by
  unfold washDays
  rw [Int.lt_ceil]
  push_cast
  rw [lt_div_iff (show (0:ℚ) < 86400000 by norm_num)]
  constructor
  · intro h
    have hq : (s : ℚ) < b := by linarith
    exact_mod_cast hq
  · intro h
    have hq : (s : ℚ) < b := by exact_mod_cast h
    linarith

theorem washDays_le30_iff (b s : ℤ) : washDays b s ≤ 30 ↔ b ≤ s + 30 * 86400000 := by
  unfold washDays
  rw [Int.ceil_le, div_le_iff (show (0:ℚ) < 86400000 by norm_num)]
  constructor
  · intro h
    have hq : (b : ℚ) ≤ s + 30 * 86400000 := by push_cast; push_cast at h; linarith
    exact_mod_cast hq
  · intro h
    have hq : (b : ℚ) ≤ (s : ℚ) + 30 * 86400000 := by exact_mod_cast h
    push_cast
    linarith

theorem findRebuy_cons_skip (a : String) (s : ℤ) (t : TaxableTrade)
    (ts : List TaxableTrade) (h : t.spotPair ≠ a) :
    findRebuy a s (t :: ts) = findRebuy a s ts := by
  simp [findRebuy, h]

theorem findRebuy_cons_nodate (a : String) (s : ℤ) (t : TaxableTrade)
    (ts : List TaxableTrade) (h1 : t.spotPair = a) (h2 : t.buyDate = none) :
    findRebuy a s (t :: ts) = findRebuy a s ts := by
  simp [findRebuy, h1, h2]

theorem findRebuy_cons_hit (a : String) (s : ℤ) (t : TaxableTrade)
    (ts : List TaxableTrade) (b : ℤ) (h1 : t.spotPair = a) (h2 : t.buyDate = some b)
    (h3 : 0 < washDays b s ∧ washDays b s ≤ 30) :
    findRebuy a s (t :: ts) = some (b, washDays b s) := by
  simp [findRebuy, h1, h2, h3.1, h3.2]

theorem findRebuy_cons_miss (a : String) (s : ℤ) (t : TaxableTrade)
    (ts : List TaxableTrade) (b : ℤ) (h1 : t.spotPair = a) (h2 : t.buyDate = some b)
    (h3 : ¬(0 < washDays b s ∧ washDays b s ≤ 30)) :
    findRebuy a s (t :: ts) = findRebuy a s ts := by
  simp only [findRebuy, h1, h2]
  rw [if_neg (by simp [h1]), if_neg h3]

theorem findRebuy_some_iff (a : String) (s : ℤ) (ts : List TaxableTrade) :
    (∃ p, findRebuy a s ts = some p) ↔
      ∃ t ∈ ts, t.spotPair = a ∧ ∃ b, t.buyDate = some b ∧
        0 < washDays b s ∧ washDays b s ≤ 30 := by
  induction ts with
  | nil => simp [findRebuy]
  | cons t ts ih =>
    by_cases hsp : t.spotPair ≠ a
    · rw [findRebuy_cons_skip a s t ts hsp, ih]
      constructor
      · rintro ⟨u, hu, hP⟩
        exact ⟨u, List.mem_cons_of_mem _ hu, hP⟩
      · rintro ⟨u, hu, hP⟩
        rcases List.mem_cons.mp hu with rfl | hu2
        · exact absurd hP.1 hsp
        · exact ⟨u, hu2, hP⟩
    · push_neg at hsp
      cases hbd : t.buyDate with
      | none =>
        rw [findRebuy_cons_nodate a s t ts hsp hbd, ih]
        constructor
        · rintro ⟨u, hu, hP⟩
          exact ⟨u, List.mem_cons_of_mem _ hu, hP⟩
        · rintro ⟨u, hu, hP⟩
          rcases List.mem_cons.mp hu with rfl | hu2
          · obtain ⟨_, b, hb, _⟩ := hP
            rw [hbd] at hb
            cases hb
          · exact ⟨u, hu2, hP⟩
      | some b =>
        by_cases hcond : 0 < washDays b s ∧ washDays b s ≤ 30
        · rw [findRebuy_cons_hit a s t ts b hsp hbd hcond]
          constructor
          · intro _
            exact ⟨t, List.mem_cons_self _ _, hsp, b, hbd, hcond⟩
          · intro _
            exact ⟨(b, washDays b s), rfl⟩
        · rw [findRebuy_cons_miss a s t ts b hsp hbd hcond, ih]
          constructor
          · rintro ⟨u, hu, hP⟩
            exact ⟨u, List.mem_cons_of_mem _ hu, hP⟩
          · rintro ⟨u, hu, hP⟩
            rcases List.mem_cons.mp hu with rfl | hu2
            · obtain ⟨_, b2, hb2, hc2⟩ := hP
              rw [hbd] at hb2
              injection hb2 with hb3
              subst hb3
              exact absurd hc2 hcond
            · exact ⟨u, hu2, hP⟩

theorem findRebuy_first (a : String) (s : ℤ) (ts1 : List TaxableTrade)
    (t : TaxableTrade) (ts2 : List TaxableTrade) (b : ℤ)
    (hsp : t.spotPair = a) (hbd : t.buyDate = some b)
    (hd1 : 0 < washDays b s) (hd2 : washDays b s ≤ 30)
    (hnone : ∀ u ∈ ts1, ¬(u.spotPair = a ∧ ∃ b2, u.buyDate = some b2 ∧
        0 < washDays b2 s ∧ washDays b2 s ≤ 30)) :
    findRebuy a s (ts1 ++ t :: ts2) = some (b, washDays b s) := by
  induction ts1 with
  | nil =>
    rw [List.nil_append]
    exact findRebuy_cons_hit a s t ts2 b hsp hbd ⟨hd1, hd2⟩
  | cons u us ih =>
    rw [List.cons_append]
    have hrec : findRebuy a s (us ++ t :: ts2) = some (b, washDays b s) :=
      ih fun v hv => hnone v (List.mem_cons_of_mem _ hv)
    by_cases hu : u.spotPair ≠ a
    · rw [findRebuy_cons_skip a s u _ hu]
      exact hrec
    · push_neg at hu
      cases hub : u.buyDate with
      | none =>
        rw [findRebuy_cons_nodate a s u _ hu hub]
        exact hrec
      | some b2 =>
        have hcond : ¬(0 < washDays b2 s ∧ washDays b2 s ≤ 30) := by
          intro hc
          exact hnone u (List.mem_cons_self _ _) ⟨hu, b2, hub, hc⟩
        rw [findRebuy_cons_miss a s u _ b2 hu hub hcond]
        exact hrec

theorem warnOf_none (trades : List TaxableTrade) (e : CGTEvent)
    (h : e.sellDate = none) : warnOf trades e = none := by
  simp [warnOf, h]

theorem warnOf_some_sell (trades : List TaxableTrade) (e : CGTEvent) (s : ℤ)
    (h : e.sellDate = some s) :
    warnOf trades e = (findRebuy e.asset s trades).map fun bd =>
      { asset := e.asset
        sellDate := s
        lossAmount := |e.capitalGain|
        rebuyDate := bd.1
        daysBetween := bd.2 } := by
  simp [warnOf, h]

theorem warnOf_some_fields (trades : List TaxableTrade) (e : CGTEvent)
    (w : WashSaleWarning) (h : warnOf trades e = some w) :
    ∃ s, e.sellDate = some s ∧ w.asset = e.asset ∧ w.sellDate = s ∧
      w.lossAmount = |e.capitalGain| ∧ ∃ p, findRebuy e.asset s trades = some p := by
  cases hs : e.sellDate with
  | none =>
    rw [warnOf_none trades e hs] at h
    cases h
  | some s =>
    rw [warnOf_some_sell trades e s hs] at h
    cases hf : findRebuy e.asset s trades with
    | none =>
      rw [hf] at h
      cases h
    | some p =>
      rw [hf] at h
      simp only [Option.map_some'] at h
      injection h with h2
      refine ⟨s, rfl, ?_, ?_, ?_, ⟨p, hf⟩⟩ <;> rw [← h2]

theorem warnOf_mem_detect (events : List CGTEvent) (trades : List TaxableTrade)
    (e : CGTEvent) (he : e ∈ events) (hneg : e.capitalGain < 0)
    (w : WashSaleWarning) (hw : warnOf trades e = some w) :
    w ∈ detectWashSales events trades := by
  unfold detectWashSales
  exact List.mem_filterMap.mpr ⟨e, List.mem_filter.mpr ⟨he, by simp [hneg]⟩, hw⟩

/-! ## Claim theorems -/

/-- C10: the financial-year label argument of `calculateTaxSummary` has no
effect on its result: for all events, carry-forward input, and labels
`fy1`, `fy2`, the two summaries coincide. -/
theorem calculateTaxSummary_fy_irrelevant (events : List CGTEvent) (fy1 fy2 : List Char)
    (carry : ℚ) :
    calculateTaxSummary events fy1 carry = calculateTaxSummary events fy2 carry := rfl

/-- C1: for every list of CGT events and every carry-forward loss input ≥ 0,
at most one of `taxableCapitalGain` and `carryForwardLoss` of the summary
returned by `calculateTaxSummary` is non-zero. -/
theorem calculateTaxSummary_mutually_exclusive (events : List CGTEvent) (fy : List Char)
    (carry : ℚ) (hc : 0 ≤ carry) :
    ¬((calculateTaxSummary events fy carry).taxableCapitalGain ≠ 0 ∧
      (calculateTaxSummary events fy carry).carryForwardLoss ≠ 0) := by
  simp only [calculateTaxSummary]
  split
  · intro h
    exact h.1 rfl
  · intro h
    exact h.2 rfl

/-- Witness for C1 at a concrete input. -/
theorem calculateTaxSummary_mutually_exclusive_witness :
    ¬((calculateTaxSummary [evShort600] [] 0).taxableCapitalGain ≠ 0 ∧
      (calculateTaxSummary [evShort600] [] 0).carryForwardLoss ≠ 0) :=
  calculateTaxSummary_mutually_exclusive [evShort600] [] 0 le_rfl

/-- C4: whenever `netBeforeDiscount = totalGains - totalLosses - carry ≤ 0`,
`calculateTaxSummary` returns zero taxable capital gain, zero CGT discount,
and `carryForwardLoss = |netBeforeDiscount|`. -/
theorem calculateTaxSummary_net_nonpositive (events : List CGTEvent) (fy : List Char)
    (carry : ℚ) (h : totalGainsOf events - totalLossesOf events - carry ≤ 0) :
    (calculateTaxSummary events fy carry).taxableCapitalGain = 0 ∧
    (calculateTaxSummary events fy carry).cgtDiscountAmount = 0 ∧
    (calculateTaxSummary events fy carry).carryForwardLoss =
      |totalGainsOf events - totalLossesOf events - carry| := by
  simp only [calculateTaxSummary, if_pos h]
  refine ⟨?_, ?_, ?_⟩ <;> first | trivial | rfl

/-- Witness for C4: gains 0, losses 500, carry-forward 0 gives taxable gain 0
and carry-forward loss 500. -/
theorem calculateTaxSummary_net_nonpositive_witness :
    (calculateTaxSummary [evLoss500] [] 0).taxableCapitalGain = 0 ∧
    (calculateTaxSummary [evLoss500] [] 0).carryForwardLoss = 500 := by
  have h := calculateTaxSummary_net_nonpositive [evLoss500] [] 0
    (by norm_num [totalGainsOf, totalLossesOf, evLoss500])
  refine ⟨h.1, ?_⟩
  rw [h.2.2]
  norm_num [totalGainsOf, totalLossesOf, evLoss500]

/-- C8: an FY label that is not a key of `TAX_BRACKETS` falls back to the
table of the most recent known financial year (value-equal to the
`"2025-26"` table), and the lookup always returns a non-empty table. -/
theorem getTaxBracketsForFY_fallback (fy : List Char)
    (h : lookupBrackets fy TAX_BRACKETS = none) :
    getTaxBracketsForFY fy = BRACKETS_2025_26 ∧ getTaxBracketsForFY fy ≠ [] := by
  unfold getTaxBracketsForFY
  rw [h]
  constructor
  · rfl
  · simp [Option.getD, BRACKETS_2024_25]

/-- Witness for C8 at the unknown label `"1999-00"`. -/
theorem getTaxBracketsForFY_fallback_witness :
    getTaxBracketsForFY ("1999-00".toList) = BRACKETS_2025_26 ∧
    getTaxBracketsForFY ("1999-00".toList) ≠ [] :=
  getTaxBracketsForFY_fallback ("1999-00".toList) rfl

/-- C3 (failing input): at `otherIncome = 18201`, `cryptoTaxableGain = 0`,
FY `"2024-25"`, the breakdown built by `calculateTax` puts all 18201 dollars
into the 0%-rate bottom bracket (its width is computed as `max - min + 1 =
18201`), so the breakdown rows' `taxOnOther` sum to `0`, while the
progressive walk `taxOnOtherIncome` (bottom-bracket width `18200`) is
`4/25 = 0.16`: the two disagree, refuting the claimed equality. -/
theorem calculateTax_breakdown_mismatch :
    ((calculateTax 18201 0 ("2024-25".toList)).bracketBreakdown.map
        BracketBreakdown.taxOnOther).sum = 0 ∧
    (calculateTax 18201 0 ("2024-25".toList)).taxOnOtherIncome = 4 / 25 ∧
    ¬(((calculateTax 18201 0 ("2024-25".toList)).bracketBreakdown.map
        BracketBreakdown.taxOnOther).sum =
      (calculateTax 18201 0 ("2024-25".toList)).taxOnOtherIncome) := by
  have hb : getTaxBracketsForFY ("2024-25".toList) = BRACKETS_2024_25 := rfl
  refine ⟨?_, ?_, ?_⟩
  · norm_num [calculateTax, hb, BRACKETS_2024_25, buildBreakdown]
  · norm_num [calculateTax, hb, BRACKETS_2024_25, calculateProgressiveTax]
  · norm_num [calculateTax, hb, BRACKETS_2024_25, buildBreakdown, calculateProgressiveTax]

/-- C2: when `netBeforeDiscount > 0`, the combined losses
`totalLosses + carry` are offset against short-term gains first, then
long-term gains, each offset capped at the bucket's gain; the 50% discount is
applied to the residual long-term gain, and the taxable capital gain is the
residual short-term gain plus the discounted residual long-term gain. -/
theorem calculateTaxSummary_offset_order (events : List CGTEvent) (fy : List Char)
    (carry : ℚ) (hc : 0 ≤ carry)
    (hnet : 0 < totalGainsOf events - totalLossesOf events - carry) :
    (calculateTaxSummary events fy carry).cgtDiscountAmount =
      residualLongTerm events carry * (1 / 2) ∧
    (calculateTaxSummary events fy carry).taxableCapitalGain =
      residualShortTerm events carry +
        (residualLongTerm events carry - residualLongTerm events carry * (1 / 2)) := by
  have hS := shortTermGainsOf_nonneg events
  have hG := longTermGainsOf_nonneg events
  have hLo := totalLossesOf_nonneg events
  have hL : 0 ≤ totalLossesOf events + carry := by linarith
  simp only [calculateTaxSummary, if_neg (not_le.mpr hnet)]
  have hoff :
      (if 0 < totalLossesOf events + carry then
          min (totalLossesOf events + carry) (shortTermGainsOf events)
        else 0) =
      min (totalLossesOf events + carry) (shortTermGainsOf events) := by
    rcases lt_or_eq_of_le hL with hpos | hzero
    · rw [if_pos hpos]
    · rw [if_neg (by rw [← hzero]; exact lt_irrefl 0), ← hzero, min_eq_left hS]
  have hoff2 :
      (if 0 <
            totalLossesOf events + carry -
              (if 0 < totalLossesOf events + carry then
                  min (totalLossesOf events + carry) (shortTermGainsOf events)
                else 0) then
          min
            (totalLossesOf events + carry -
              (if 0 < totalLossesOf events + carry then
                  min (totalLossesOf events + carry) (shortTermGainsOf events)
                else 0))
            (longTermGainsOf events)
        else 0) =
      min
        (totalLossesOf events + carry -
          min (totalLossesOf events + carry) (shortTermGainsOf events))
        (longTermGainsOf events) := by
    rw [hoff]
    have hrem : 0 ≤ totalLossesOf events + carry -
        min (totalLossesOf events + carry) (shortTermGainsOf events) := by
      have := min_le_left (totalLossesOf events + carry) (shortTermGainsOf events)
      linarith
    rcases lt_or_eq_of_le hrem with hpos | hzero
    · rw [if_pos hpos]
    · rw [if_neg (by rw [← hzero]; exact lt_irrefl 0), ← hzero, min_eq_left hG]
  constructor
  · show (longTermGainsOf events - _) * CGT_DISCOUNT = _
    rw [hoff2]
    rw [residualLongTerm, CGT_DISCOUNT]
  · show (shortTermGainsOf events - _) + ((longTermGainsOf events - _) -
        (longTermGainsOf events - _) * CGT_DISCOUNT) = _
    rw [hoff2, hoff]
    rw [residualLongTerm, residualShortTerm, CGT_DISCOUNT]

/-- Witness for C2: 600 short-term gains, 400 long-term gains, 300 losses,
carry-forward 0 give CGT discount 200 and taxable capital gain 500. -/
theorem calculateTaxSummary_offset_order_witness :
    (calculateTaxSummary [evShort600, evLong400, evLoss300] [] 0).cgtDiscountAmount = 200 ∧
    (calculateTaxSummary [evShort600, evLong400, evLoss300] [] 0).taxableCapitalGain = 500 := by
  have h := calculateTaxSummary_offset_order [evShort600, evLong400, evLoss300] [] 0 le_rfl
    (by norm_num [totalGainsOf, totalLossesOf, evShort600, evLong400, evLoss300])
  rw [h.1, h.2]
  norm_num [residualShortTerm, residualLongTerm, totalLossesOf, shortTermGainsOf,
    longTermGainsOf, evShort600, evLong400, evLoss300, min_def]

/-- C6: for a trade with parseable dates, the derived event has
`holdingDays ≥ 0`; it is long-term exactly when the holding period exceeds
365 days; it is discount-eligible exactly when long-term with a positive
gain; and the discounted gain halves the gain exactly when eligible — in
particular every loss event keeps `discountedGain = capitalGain`. -/
theorem tradeToCGTEvent_properties (t : TaxableTrade) (rate : ℚ) (b s : ℤ)
    (hb : t.buyDate = some b) (hs : t.exitDate = some s) :
    ∃ h : ℤ, (tradeToCGTEvent t rate).holdingDays = some h ∧ 0 ≤ h ∧
      ((tradeToCGTEvent t rate).isLongTerm = true ↔ 365 < h) ∧
      ((tradeToCGTEvent t rate).discountEligible = true ↔
        ((tradeToCGTEvent t rate).isLongTerm = true ∧
          0 < (tradeToCGTEvent t rate).capitalGain)) ∧
      ((tradeToCGTEvent t rate).discountedGain =
        if (tradeToCGTEvent t rate).discountEligible = true then
          (tradeToCGTEvent t rate).capitalGain * (1 / 2)
        else (tradeToCGTEvent t rate).capitalGain) ∧
      ((tradeToCGTEvent t rate).capitalGain < 0 →
        (tradeToCGTEvent t rate).discountedGain = (tradeToCGTEvent t rate).capitalGain) := by
  refine ⟨max 0 (Int.ceil (((s - b : ℤ) : ℚ) / 86400000)), ?_, le_max_left _ _, ?_, ?_, ?_, ?_⟩
  · simp [tradeToCGTEvent, hb, hs]
  · simp [tradeToCGTEvent, hb, hs, LONG_TERM_DAYS]
  · simp [tradeToCGTEvent, hb, hs, Bool.and_eq_true]
  · simp only [tradeToCGTEvent, hb, hs, CGT_DISCOUNT]
  · intro hneg
    have hne : ¬((tradeToCGTEvent t rate).discountEligible = true) := by
      simp only [tradeToCGTEvent, hb, hs, Bool.and_eq_true, decide_eq_true_eq]
      intro hcontra
      simp only [tradeToCGTEvent, hb, hs] at hneg
      exact absurd hcontra.2 (by linarith)
    have hd : (tradeToCGTEvent t rate).discountedGain =
        if (tradeToCGTEvent t rate).discountEligible = true then
          (tradeToCGTEvent t rate).capitalGain * (1 / 2)
        else (tradeToCGTEvent t rate).capitalGain := by
      simp only [tradeToCGTEvent, hb, hs, CGT_DISCOUNT]
    rw [hd, if_neg hne]

/-- Witness for C6: a trade held exactly 365 days has holding period 365 and
is not long-term (the boundary case). -/
theorem tradeToCGTEvent_properties_witness :
    (tradeToCGTEvent trade365 1).holdingDays = some 365 ∧
    (tradeToCGTEvent trade365 1).isLongTerm = false := by
  obtain ⟨hd, hsome, _hge, hiff, _⟩ :=
    tradeToCGTEvent_properties trade365 1 0 31536000000 rfl rfl
  have hval : (tradeToCGTEvent trade365 1).holdingDays = some 365 := by
    simp only [tradeToCGTEvent, trade365]
    norm_num
  refine ⟨hval, ?_⟩
  rw [hval] at hsome
  have hhd : hd = 365 := by
    injection hsome with h1
    omega
  cases hb : (tradeToCGTEvent trade365 1).isLongTerm
  · rfl
  · have := hiff.mp hb
    omega

/-- C5: `detectWashSales` warnings arise only from loss events (non-negative
gains never produce one); there is at most one warning per loss event; a loss
event with a parseable sell date gets a warning exactly when some trade on
the same asset has a buy date strictly after the sell date and at most 30
(ceiled) days after it; the first matching trade in iteration order supplies
the warning's rebuy date and day gap; and the day-gap test
`0 < daysBetween ≤ 30` says exactly "strictly after, within 30 days". -/
theorem detectWashSales_characterization :
    (∀ (events : List CGTEvent) (trades : List TaxableTrade),
      ∀ w ∈ detectWashSales events trades, ∃ e ∈ events,
        e.capitalGain < 0 ∧ w.asset = e.asset ∧ e.sellDate = some w.sellDate ∧
          w.lossAmount = |e.capitalGain|) ∧
    (∀ (events : List CGTEvent) (trades : List TaxableTrade),
      (detectWashSales events trades).length ≤
        (events.filter fun e => decide (e.capitalGain < 0)).length) ∧
    (∀ (events : List CGTEvent) (trades : List TaxableTrade) (e : CGTEvent) (s : ℤ),
      e ∈ events → e.capitalGain < 0 → e.sellDate = some s →
      ((∃ t ∈ trades, t.spotPair = e.asset ∧ ∃ b, t.buyDate = some b ∧
          s < b ∧ b ≤ s + 30 * 86400000) ↔
        ∃ w ∈ detectWashSales events trades,
          w.asset = e.asset ∧ w.sellDate = s ∧ w.lossAmount = |e.capitalGain|)) ∧
    (∀ (ts1 : List TaxableTrade) (t : TaxableTrade) (ts2 : List TaxableTrade)
        (a : String) (s b : ℤ),
      t.spotPair = a → t.buyDate = some b → 0 < washDays b s → washDays b s ≤ 30 →
      (∀ u ∈ ts1, ¬(u.spotPair = a ∧ ∃ b2, u.buyDate = some b2 ∧
          0 < washDays b2 s ∧ washDays b2 s ≤ 30)) →
      findRebuy a s (ts1 ++ t :: ts2) = some (b, washDays b s)) ∧
    (∀ b s : ℤ, (0 < washDays b s ∧ washDays b s ≤ 30) ↔
      (s < b ∧ b ≤ s + 30 * 86400000)) := by
  refine ⟨?_, ?_, ?_, ?_, ?_⟩
  · intro events trades w hw
    obtain ⟨e, hef, hwo⟩ := List.mem_filterMap.mp hw
    obtain ⟨he, hneg⟩ := List.mem_filter.mp hef
    obtain ⟨s, hsell, ha, hws, hl, _⟩ := warnOf_some_fields trades e w hwo
    refine ⟨e, he, by simpa using hneg, ha, ?_, hl⟩
    rw [hws]
    exact hsell
  · intro events trades
    exact List.length_filterMap_le _ _
  · intro events trades e s he hneg hsell
    constructor
    · rintro ⟨t, ht, hsp, b, hbd, hlt, hle⟩
      have hcond : 0 < washDays b s ∧ washDays b s ≤ 30 :=
        ⟨(washDays_pos_iff b s).mpr hlt, (washDays_le30_iff b s).mpr hle⟩
      obtain ⟨p, hp⟩ := (findRebuy_some_iff e.asset s trades).mpr
        ⟨t, ht, hsp, b, hbd, hcond⟩
      have hwarn : warnOf trades e = some
          { asset := e.asset
            sellDate := s
            lossAmount := |e.capitalGain|
            rebuyDate := p.1
            daysBetween := p.2 } := by
        rw [warnOf_some_sell trades e s hsell, hp, Option.map_some']
      exact ⟨_, warnOf_mem_detect events trades e he hneg _ hwarn, rfl, rfl, rfl⟩
    · rintro ⟨w, hw, ha, hws, _⟩
      obtain ⟨e2, hef, hwo⟩ := List.mem_filterMap.mp hw
      obtain ⟨s2, hsell2, ha2, hws2, _, p2, hp2⟩ := warnOf_some_fields trades e2 w hwo
      obtain ⟨t, ht, hsp, b, hbd, hc1, hc2⟩ :=
        (findRebuy_some_iff e2.asset s2 trades).mp ⟨p2, hp2⟩
      refine ⟨t, ht, ?_, b, hbd, ?_, ?_⟩
      · rw [hsp, ← ha2, ha]
      · have : s2 = s := by rw [← hws2, hws]
        rw [← this]
        exact (washDays_pos_iff b s2).mp hc1
      · have : s2 = s := by rw [← hws2, hws]
        rw [← this]
        exact (washDays_le30_iff b s2).mp hc2
  · intro ts1 t ts2 a s b h1 h2 h3 h4 h5
    exact findRebuy_first a s ts1 t ts2 b h1 h2 h3 h4 h5
  · intro b s
    constructor
    · rintro ⟨h1, h2⟩
      exact ⟨(washDays_pos_iff b s).mp h1, (washDays_le30_iff b s).mp h2⟩
    · rintro ⟨h1, h2⟩
      exact ⟨(washDays_pos_iff b s).mpr h1, (washDays_le30_iff b s).mpr h2⟩

/-- Witness for C5: the BTC loss sold 2024-03-01 with a rebuy 19 days later
yields exactly one warning with `daysBetween = 19`; a rebuy 31 days later
yields none. -/
theorem detectWashSales_characterization_witness :
    detectWashSales [lossBTC] [rebuy19] =
      [⟨"BTC", 1709251200000, 100, 1710892800000, 19⟩] ∧
    (∃ w ∈ detectWashSales [lossBTC] [rebuy19],
      w.asset = "BTC" ∧ w.sellDate = 1709251200000 ∧ w.lossAmount = 100) ∧
    detectWashSales [lossBTC] [rebuy31] = [] := by
  have hd19 : washDays 1710892800000 1709251200000 = 19 := by
    norm_num [washDays]
  have hd31 : washDays 1711929600000 1709251200000 = 31 := by
    norm_num [washDays]
  have hneg : lossBTC.capitalGain < 0 := by norm_num [lossBTC]
  refine ⟨?_, ?_, ?_⟩
  · have hfr : findRebuy "BTC" 1709251200000 [rebuy19] = some (1710892800000, 19) := by
      rw [show ([rebuy19] : List TaxableTrade) = [] ++ rebuy19 :: [] from rfl]
      rw [findRebuy_first "BTC" 1709251200000 [] rebuy19 [] 1710892800000 rfl rfl
        (by rw [hd19]; norm_num) (by rw [hd19]; norm_num) (by simp)]
      rw [hd19]
    have hwarn : warnOf [rebuy19] lossBTC = some ⟨"BTC", 1709251200000, 100, 1710892800000, 19⟩ := by
      rw [warnOf_some_sell [rebuy19] lossBTC 1709251200000 rfl]
      rw [show lossBTC.asset = "BTC" from rfl, hfr, Option.map_some']
      norm_num [lossBTC]
    unfold detectWashSales
    rw [show (([lossBTC] : List CGTEvent).filter fun e => decide (e.capitalGain < 0)) =
        [lossBTC] from by simp [hneg]]
    simp [hwarn]
  · have h := detectWashSales_characterization.2.2.1 [lossBTC] [rebuy19] lossBTC
      1709251200000 (List.mem_singleton.mpr rfl) hneg rfl
    have hex : ∃ t ∈ [rebuy19], t.spotPair = lossBTC.asset ∧ ∃ b, t.buyDate = some b ∧
        (1709251200000 : ℤ) < b ∧ b ≤ 1709251200000 + 30 * 86400000 := by
      refine ⟨rebuy19, List.mem_singleton.mpr rfl, rfl, 1710892800000, rfl, by norm_num, by norm_num⟩
    obtain ⟨w, hwmem, h1, h2, h3⟩ := h.mp hex
    refine ⟨w, hwmem, h1.trans rfl, h2, h3.trans (by norm_num [lossBTC])⟩
  · have hfr : findRebuy "BTC" 1709251200000 [rebuy31] = none := by
      rw [findRebuy_cons_miss "BTC" 1709251200000 rebuy31 [] 1711929600000 rfl rfl
        (by rw [hd31]; norm_num)]
      rfl
    have hwarn : warnOf [rebuy31] lossBTC = none := by
      rw [warnOf_some_sell [rebuy31] lossBTC 1709251200000 rfl]
      rw [show lossBTC.asset = "BTC" from rfl, hfr]
      rfl
    unfold detectWashSales
    rw [show (([lossBTC] : List CGTEvent).filter fun e => decide (e.capitalGain < 0)) =
        [lossBTC] from by simp [hneg]]
    simp [hwarn]

/-- C7: `getCGTEventsForFY` returns a list sorted ascending by sell date, and
(as a multiset) exactly one event per trade passing the FY filter; the filter
holds exactly for trades with a defined positive exit quantity and a
parseable exit date within the FY's `[start, end]` range inclusive — so a
trade whose exit date lies outside the range never contributes an event. -/
theorem getCGTEventsForFY_filter_sorted (trades : List TaxableTrade) (fy : List Char)
    (rate : ℚ) :
    (getCGTEventsForFY trades fy rate).Sorted sellLE ∧
    ∀ s e : SimpleDate, getFYBoundaries fy = some (s, e) →
      ((getCGTEventsForFY trades fy rate).Perm
        ((trades.filter (passesFYFilter s e)).map fun t => tradeToCGTEvent t rate) ∧
       ∀ t : TaxableTrade, passesFYFilter s e t = true ↔
         ((∃ q, t.exitQuantity = some q ∧ 0 < q) ∧
          ∃ d, t.exitDate = some d ∧ s.time ≤ d ∧ d ≤ e.time)) := by
  constructor
  · unfold getCGTEventsForFY
    cases hb : getFYBoundaries fy with
    | none => exact List.sorted_nil
    | some p =>
      obtain ⟨s, e⟩ := p
      exact List.sorted_insertionSort sellLE _
  · intro s e hb
    constructor
    · unfold getCGTEventsForFY
      rw [hb]
      exact List.perm_insertionSort sellLE _
    · intro t
      cases hd : t.exitDate with
      | none => simp [passesFYFilter, hd]
      | some d =>
        cases hq : t.exitQuantity with
        | none => simp [passesFYFilter, hd, hq]
        | some q =>
          by_cases hq0 : q ≤ 0
          · simp only [passesFYFilter, hd, hq, if_pos hq0]
            simp only [Bool.false_eq_true, false_iff]
            rintro ⟨⟨q2, hq2, hq2pos⟩, _⟩
            injection hq2 with hq3
            subst hq3
            exact absurd hq2pos (not_lt.mpr hq0)
          · simp only [passesFYFilter, hd, hq, if_neg hq0]
            rw [Bool.and_eq_true, decide_eq_true_eq, decide_eq_true_eq]
            constructor
            · rintro ⟨h1, h2⟩
              exact ⟨⟨q, rfl, not_le.mp hq0⟩, d, rfl, h1, h2⟩
            · rintro ⟨_, d2, hd2, h1, h2⟩
              injection hd2 with hd3
              subst hd3
              exact ⟨h1, h2⟩

/-- Witness for C7 at FY `"2024-25"`: a trade exited 2024-07-01 passes the
filter, a trade exited 2024-03-01 does not, and the returned list is the
sorted permutation of the filtered trades' events. -/
theorem getCGTEventsForFY_filter_sorted_witness :
    (getCGTEventsForFY [tradeIn, tradeOut] ("2024-25".toList) 1).Sorted sellLE ∧
    (getCGTEventsForFY [tradeIn, tradeOut] ("2024-25".toList) 1).Perm
      ((([tradeIn, tradeOut] : List TaxableTrade).filter
        (passesFYFilter ⟨2024, 6, 1, 0, 0, 0, 0⟩ ⟨2025, 5, 30, 23, 59, 59, 999⟩)).map
        fun t => tradeToCGTEvent t 1) ∧
    passesFYFilter ⟨2024, 6, 1, 0, 0, 0, 0⟩ ⟨2025, 5, 30, 23, 59, 59, 999⟩ tradeIn = true ∧
    passesFYFilter ⟨2024, 6, 1, 0, 0, 0, 0⟩ ⟨2025, 5, 30, 23, 59, 59, 999⟩ tradeOut = false := by
  obtain ⟨hsort, h2⟩ :=
    getCGTEventsForFY_filter_sorted [tradeIn, tradeOut] ("2024-25".toList) 1
  obtain ⟨hperm, hiff⟩ := h2 ⟨2024, 6, 1, 0, 0, 0, 0⟩ ⟨2025, 5, 30, 23, 59, 59, 999⟩ rfl
  refine ⟨hsort, hperm, ?_, ?_⟩
  · rw [hiff tradeIn]
    refine ⟨⟨1, rfl, by norm_num⟩, 1719792000000, rfl, by decide, by decide⟩
  · rw [Bool.eq_false_iff]
    intro hc
    obtain ⟨_, d2, hd2, h1, _⟩ := (hiff tradeOut).mp hc
    have hd3 : d2 = 1709251200000 := by
      have : tradeOut.exitDate = some 1709251200000 := rfl
      rw [this] at hd2
      injection hd2 with h4
      omega
    subst hd3
    revert h1
    decide

/-- C9: label and boundary resolution round-trip.  For every valid calendar
date (year ≥ 1), `getFinancialYearLabel` produces the label
`"{startYear}-{endYearTwoDigits}"` where the start year is the date's
calendar year for July–December dates and the previous year for
January–June dates; `getFYBoundaries` of that label is July 1 00:00:00 of
the start year through June 30 23:59:59.999 of the following year; and the
date's timestamp lies within those boundaries. -/
theorem financialYear_roundTrip (d : SimpleDate) (hv : d.Valid) (hy : 1 ≤ d.year) :
    getFinancialYearLabel d =
      natChars (fyStartYear d) ++ '-' :: pad2 ((fyStartYear d + 1) % 100) ∧
    getFYBoundaries (getFinancialYearLabel d) =
      some (⟨fyStartYear d, 6, 1, 0, 0, 0, 0⟩, ⟨fyStartYear d + 1, 5, 30, 23, 59, 59, 999⟩) ∧
    (⟨fyStartYear d, 6, 1, 0, 0, 0, 0⟩ : SimpleDate).time ≤ d.time ∧
    d.time ≤ (⟨fyStartYear d + 1, 5, 30, 23, 59, 59, 999⟩ : SimpleDate).time := by
  have hlabel : getFinancialYearLabel d =
      natChars (fyStartYear d) ++ '-' :: pad2 ((fyStartYear d + 1) % 100) := by
    unfold getFinancialYearLabel fyStartYear
    by_cases h6 : 6 ≤ d.month
    · rw [if_pos h6, if_pos h6]
    · rw [if_neg h6, if_neg h6, Nat.sub_add_cancel hy]
  refine ⟨hlabel, ?_, fyStart_time_le d hv hy, time_le_fyEnd d hv hy⟩
  rw [hlabel]
  exact getFYBoundaries_label (fyStartYear d) _

/-- Witness for C9 at 2025-02-15 10:30 (February 2025): label `"2024-25"`,
boundaries July 1 2024 through June 30 2025, date inside. -/
theorem financialYear_roundTrip_witness :
    getFinancialYearLabel feb2025 = "2024-25".toList ∧
    getFYBoundaries (getFinancialYearLabel feb2025) =
      some (⟨2024, 6, 1, 0, 0, 0, 0⟩, ⟨2025, 5, 30, 23, 59, 59, 999⟩) ∧
    (⟨2024, 6, 1, 0, 0, 0, 0⟩ : SimpleDate).time ≤ feb2025.time ∧
    feb2025.time ≤ (⟨2025, 5, 30, 23, 59, 59, 999⟩ : SimpleDate).time := by
  obtain ⟨h1, h2, h3, h4⟩ := financialYear_roundTrip feb2025 (by decide) (by decide)
  have hfy : fyStartYear feb2025 = 2024 := rfl
  rw [hfy] at h1 h2 h3 h4
  refine ⟨?_, h2, h3, h4⟩
  rw [h1]
  have e2 : natChars 2 = ['2'] := by
    rw [natChars.eq_def]
    norm_num
    decide
  have e25 : natChars 25 = ['2', '5'] := by
    rw [natChars.eq_def]
    norm_num [e2]
    decide
  have e20 : natChars 20 = ['2', '0'] := by
    rw [natChars.eq_def]
    norm_num [e2]
    decide
  have e202 : natChars 202 = ['2', '0', '2'] := by
    rw [natChars.eq_def]
    norm_num [e20]
    decide
  have e2024 : natChars 2024 = ['2', '0', '2', '4'] := by
    rw [natChars.eq_def]
    norm_num [e202]
    decide
  have ep : pad2 ((2024 + 1) % 100) = ['2', '5'] := by
    unfold pad2
    norm_num [e25]
  rw [e2024, ep]
  decide

end CryptoTax

